import Mathlib

/-
Verification of the Kodak Smart Home camera adapter
(src/custom_components/kodak_smart_thome/camera.py).

The adapter keeps three mutable fields: `last_video_id`, `video_url` and
`expires_at`.  Construction (`__init__`) initialises them from the motion-event
sequence fetched for the device; `update` re-fetches the sequence and refreshes
the fields when a new event id is seen or the freshness deadline has elapsed.
The still-image fetch and the MJPEG stream proxy delegate to the ffmpeg helper
and are modelled by the trace of helper invocations they perform.

Timestamps are modelled as natural numbers (seconds); the fixed freshness
window FORCE_REFRESH_INTERVAL = timedelta(minutes=45) becomes 45 * 60 seconds.
Dictionary lookups that can raise KeyError are modelled with `Except String`.
-/

namespace Kodak

/-- Source constant `FORCE_REFRESH_INTERVAL = timedelta(minutes=45)`, in seconds. -/
def FORCE_REFRESH_INTERVAL : Nat := 45 * 60

/-- One element of a motion event's `data` list.  The source tests
`"file_type" in event_data` before reading it, so the tag is optional; the
`"file"` key is read unguarded, so it is optional here and its absence is a
KeyError in the model. -/
structure EventData where
  file_type : Option Int
  file : Option String
deriving DecidableEq

/-- A motion event: an `"id"` and a `"data"` list, the two keys the source reads. -/
structure MotionEvent where
  id : String
  data : List EventData
deriving DecidableEq

/-- The adapter's mutable state: `_last_video_id`, `_video_url`, `_expires_at`. -/
structure CamState where
  last_video_id : Option String
  video_url : Option String
  expires_at : Nat
deriving DecidableEq

/-- Python truthiness of the optional URL string, as tested by `if video_url:`
in `update`: `None` and the empty string are falsy. -/
def truthy : Option String → Bool
  | none => false
  | some s => !s.isEmpty

namespace KodakSmartHomeCam

/-- Embedding of `KodakSmartHomeCam._get_event_video_url`: scan the data items
in order and return the `"file"` of the first one whose `"file_type"` is
present and equals 2; return `none` when no item matches.  Reading `"file"`
from a matching item that lacks it raises KeyError. -/
def get_event_video_url : List EventData → Except String (Option String)
  | [] => Except.ok none
  | d :: rest =>
    if d.file_type = some 2 then
      match d.file with
      | some f => Except.ok (some f)
      | none => Except.error "KeyError"
    else get_event_video_url rest

/-- Embedding of the state initialisation in `KodakSmartHomeCam.__init__`,
given the motion events fetched at construction time and the current time:
`_last_video_id` is the last event's id (or `None` for an empty sequence),
`_video_url` is `_get_event_video_url` of the last event's data (or `None`),
and `_expires_at` is `FORCE_REFRESH_INTERVAL + utcnow()`. -/
def init (events : List MotionEvent) (now : Nat) : Except String CamState :=
  match events.getLast? with
  | none => Except.ok ⟨none, none, FORCE_REFRESH_INTERVAL + now⟩
  | some e =>
    match get_event_video_url e.data with
    | Except.error m => Except.error m
    | Except.ok url => Except.ok ⟨some e.id, url, FORCE_REFRESH_INTERVAL + now⟩

/-- Embedding of `KodakSmartHomeCam.update`, given the freshly fetched motion
events and the current time: an empty sequence returns early; otherwise, when
the last event's id differs from `_last_video_id` or `utcnow() >= _expires_at`,
the extracted URL is adopted — together with the event id and a new deadline —
but only if it is truthy. -/
def update (s : CamState) (events : List MotionEvent) (now : Nat) :
    Except String CamState :=
  match events.getLast? with
  | none => Except.ok s
  | some e =>
    if s.last_video_id ≠ some e.id ∨ s.expires_at ≤ now then
      match get_event_video_url e.data with
      | Except.error m => Except.error m
      | Except.ok url =>
        if truthy url then
          Except.ok ⟨some e.id, url, FORCE_REFRESH_INTERVAL + now⟩
        else Except.ok s
    else Except.ok s

end KodakSmartHomeCam

/-- A helper invocation made by `async_camera_image`. -/
inductive ImageStep where
  | getImage (url : String) (extra : Option String)
deriving DecidableEq

/-- Embedding of `KodakSmartHomeCam.async_camera_image`: when `_video_url` is
`None` it returns no content and performs no helper call; otherwise it invokes
the helper's single-frame extraction on the URL (with the optional ffmpeg
arguments) and returns its result.  The helper's behaviour is a parameter. -/
def async_camera_image (s : CamState) (extra : Option String)
    (helper : String → Option String → Except String String) :
    List ImageStep × Except String (Option String) :=
  match s.video_url with
  | none => ([], Except.ok none)
  | some url => ([ImageStep.getImage url extra], (helper url extra).map some)

/-- A helper/proxy invocation made by `handle_async_mjpeg_stream`. -/
inductive StreamStep where
  | openCamera (url : String) (extra : Option String)
  | getReader
  | proxyStream
  | close
deriving DecidableEq

/-- Embedding of `KodakSmartHomeCam.handle_async_mjpeg_stream`: when
`_video_url` is `None` it returns no content with no helper call; otherwise it
opens the helper session, and inside `try ... finally stream.close()` obtains
the reader and copies it to the client.  The outcomes of opening, obtaining the
reader and proxying are parameters; the first component is the trace of
invocations in order, the second the overall result (errors propagate). -/
def handle_async_mjpeg_stream (s : CamState) (extra : Option String)
    (openR readerR proxyR : Except String Unit) :
    List StreamStep × Except String (Option Unit) :=
  match s.video_url with
  | none => ([], Except.ok none)
  | some url =>
    match openR with
    | Except.error m => ([StreamStep.openCamera url extra], Except.error m)
    | Except.ok _ =>
      match readerR with
      | Except.error m =>
        ([StreamStep.openCamera url extra, StreamStep.getReader,
          StreamStep.close], Except.error m)
      | Except.ok _ =>
        match proxyR with
        | Except.error m =>
          ([StreamStep.openCamera url extra, StreamStep.getReader,
            StreamStep.proxyStream, StreamStep.close], Except.error m)
        | Except.ok _ =>
          ([StreamStep.openCamera url extra, StreamStep.getReader,
            StreamStep.proxyStream, StreamStep.close], Except.ok (some ()))

/-- States observable by an adapter instance together with the events it has
seen: either freshly constructed from a fetched sequence, or obtained from an
observable state by a successful `update` on a further fetched sequence. -/
inductive Observed : CamState → List MotionEvent → Prop where
  | construct : ∀ (events : List MotionEvent) (now : Nat) (s : CamState),
      KodakSmartHomeCam.init events now = Except.ok s → Observed s events
  | refresh : ∀ (s : CamState) (obs events : List MotionEvent) (now : Nat)
      (s' : CamState), Observed s obs →
      KodakSmartHomeCam.update s events now = Except.ok s' →
      Observed s' (obs ++ events)

/-- Sample event whose single data item is a type-2 video with URL `"u"`. -/
def evU : MotionEvent := ⟨"a", [⟨some 2, some "u"⟩]⟩

/-- Sample event whose single data item is a type-2 video with an empty URL. -/
def evEmpty : MotionEvent := ⟨"b", [⟨some 2, some ""⟩]⟩

/-- Sample event with data items but no type-2 item. -/
def evNoVid : MotionEvent := ⟨"c", [⟨some 1, some "x"⟩, ⟨none, some "y"⟩]⟩

/-- The element selected by `getLast?` is a member of the list. -/
theorem mem_of_getLast? {α : Type} {l : List α} {e : α}
    (h : l.getLast? = some e) : e ∈ l := by
  obtain ⟨hne, rfl⟩ := List.mem_getLast?_eq_getLast h
  exact List.getLast_mem hne

/-- The URL scan returns the file of the first type-2 item, as selected by
`List.find?`, and raises exactly when that item has no file. -/
theorem get_event_video_url_eq_find (data : List EventData) :
    KodakSmartHomeCam.get_event_video_url data =
      match data.find? (fun d => d.file_type == some 2) with
      | none => Except.ok none
      | some d =>
        match d.file with
        | some f => Except.ok (some f)
        | none => Except.error "KeyError" := by
  induction data with
  | nil => rfl
  | cons d rest ih =>
    simp only [KodakSmartHomeCam.get_event_video_url, List.find?]
    cases hb : d.file_type == some 2 with
    | true => rw [if_pos (beq_iff_eq.mp hb)]
    | false =>
      rw [if_neg (by simpa using hb)]
      exact ih

/-- When no data item is tagged type 2, the URL scan succeeds with no URL. -/
theorem get_event_video_url_of_no_type2 (data : List EventData)
    (h : ∀ d ∈ data, d.file_type ≠ some 2) :
    KodakSmartHomeCam.get_event_video_url data = Except.ok none := by
  induction data with
  | nil => rfl
  | cons d rest ih =>
    have hd : d.file_type ≠ some 2 := h d (List.mem_cons_self d rest)
    simp only [KodakSmartHomeCam.get_event_video_url, if_neg hd]
    exact ih fun x hx => h x (List.mem_cons_of_mem d hx)

/-- A successfully extracted URL comes from a type-2 data item of the list. -/
theorem get_event_video_url_mem (data : List EventData) (u : String)
    (h : KodakSmartHomeCam.get_event_video_url data = Except.ok (some u)) :
    ∃ d ∈ data, d.file_type = some 2 ∧ d.file = some u := by
  induction data with
  | nil => simp [KodakSmartHomeCam.get_event_video_url] at h
  | cons d rest ih =>
    by_cases hd : d.file_type = some 2
    · refine ⟨d, List.mem_cons_self d rest, hd, ?_⟩
      simp only [KodakSmartHomeCam.get_event_video_url, if_pos hd] at h
      cases hf : d.file with
      | none => rw [hf] at h; exact absurd h (by simp)
      | some f => rw [hf] at h; simp at h; rw [h]
    · simp only [KodakSmartHomeCam.get_event_video_url, if_neg hd] at h
      obtain ⟨d', hmem, hp⟩ := ih h
      exact ⟨d', List.mem_cons_of_mem d hmem, hp⟩

/-- Full characterisation of `update` on a non-empty sequence whose URL scan
succeeds: the state changes exactly when the trigger condition holds and the
extracted URL is truthy, and then all three fields are set. -/
theorem update_char (s : CamState) (events : List MotionEvent)
    (e : MotionEvent) (now : Nat) (url : Option String)
    (hLast : events.getLast? = some e)
    (hGet : KodakSmartHomeCam.get_event_video_url e.data = Except.ok url) :
    KodakSmartHomeCam.update s events now = Except.ok
      (if (s.last_video_id ≠ some e.id ∨ s.expires_at ≤ now) ∧ truthy url
       then ⟨some e.id, url, FORCE_REFRESH_INTERVAL + now⟩
       else s) := by
  simp only [KodakSmartHomeCam.update, hLast, hGet]
  by_cases hc : s.last_video_id ≠ some e.id ∨ s.expires_at ≤ now
  · rw [if_pos hc]
    by_cases ht : truthy url
    · rw [if_pos ht, if_pos (And.intro hc ht)]
    · rw [if_neg ht, if_neg (fun hh : _ ∧ _ => ht hh.2)]
  · rw [if_neg hc, if_neg (fun hh : _ ∧ _ => hc hh.1)]

/-- Inversion for a successful `update`: either nothing changed, or the last
event's truthy URL was adopted together with its id and a fresh deadline. -/
theorem update_ok_inv (s : CamState) (events : List MotionEvent) (now : Nat)
    (s' : CamState)
    (h : KodakSmartHomeCam.update s events now = Except.ok s') :
    (events.getLast? = none ∧ s' = s) ∨
    ∃ e, events.getLast? = some e ∧
      ((¬(s.last_video_id ≠ some e.id ∨ s.expires_at ≤ now) ∧ s' = s) ∨
       ((s.last_video_id ≠ some e.id ∨ s.expires_at ≤ now) ∧
        ∃ url, KodakSmartHomeCam.get_event_video_url e.data = Except.ok url ∧
          ((truthy url = true ∧
            s' = ⟨some e.id, url, FORCE_REFRESH_INTERVAL + now⟩) ∨
           (truthy url = false ∧ s' = s)))) := by
  cases hL : events.getLast? with
  | none =>
    simp only [KodakSmartHomeCam.update, hL, Except.ok.injEq] at h
    exact Or.inl ⟨rfl, h.symm⟩
  | some e =>
    simp only [KodakSmartHomeCam.update, hL] at h
    refine Or.inr ⟨e, rfl, ?_⟩
    by_cases hc : s.last_video_id ≠ some e.id ∨ s.expires_at ≤ now
    · rw [if_pos hc] at h
      refine Or.inr ⟨hc, ?_⟩
      cases hG : KodakSmartHomeCam.get_event_video_url e.data with
      | error m => simp only [hG] at h; exact absurd h (by simp)
      | ok url =>
        simp only [hG] at h
        refine ⟨url, rfl, ?_⟩
        by_cases ht : truthy url
        · rw [if_pos ht] at h
          simp only [Except.ok.injEq] at h
          exact Or.inl ⟨ht, h.symm⟩
        · rw [if_neg ht] at h
          simp only [Except.ok.injEq] at h
          exact Or.inr ⟨Bool.eq_false_iff.mpr ht, h.symm⟩
    · rw [if_neg hc] at h
      simp only [Except.ok.injEq] at h
      exact Or.inl ⟨hc, h.symm⟩

/-- An empty fetched sequence makes `update` return early with no change. -/
theorem update_nil (s : CamState) (now : Nat) :
    KodakSmartHomeCam.update s [] now = Except.ok s := rfl

/-- C1, counterexample: with state (last_video_id = none, video_url = none,
expires_at = 10), fetched sequence `[⟨"a", []⟩]` and now = 0, the trigger
condition holds (the newest id differs from last_video_id), yet `update`
leaves the state unchanged: expires_at stays 10 instead of being reset to
FORCE_REFRESH_INTERVAL + 0, so the claimed "resets expires_at iff the
condition holds" is false. -/
theorem C1_counterexample :
    ((⟨none, none, 10⟩ : CamState).last_video_id ≠
        some (MotionEvent.mk "a" []).id ∨
      (⟨none, none, 10⟩ : CamState).expires_at ≤ 0) ∧
    KodakSmartHomeCam.update ⟨none, none, 10⟩ [⟨"a", []⟩] 0 =
      Except.ok ⟨none, none, 10⟩ ∧
    (10 : Nat) ≠ FORCE_REFRESH_INTERVAL + 0 :=
  ⟨Or.inl (by decide), rfl, by decide⟩

/-- C1, amended: on a non-empty fetched sequence whose newest event's URL scan
succeeds, `update` adopts the newest event's URL, id and a fresh deadline iff
the trigger condition (newest id differs from last_video_id, or now is at or
past expires_at) holds AND the extracted URL is truthy (present and
non-empty); otherwise last_video_id, video_url and expires_at are all left
unchanged. -/
theorem C1_refresh_trigger (s : CamState) (events : List MotionEvent)
    (e : MotionEvent) (now : Nat) (url : Option String)
    (hLast : events.getLast? = some e)
    (hGet : KodakSmartHomeCam.get_event_video_url e.data = Except.ok url) :
    KodakSmartHomeCam.update s events now = Except.ok
      (if (s.last_video_id ≠ some e.id ∨ s.expires_at ≤ now) ∧ truthy url
       then ⟨some e.id, url, FORCE_REFRESH_INTERVAL + now⟩
       else s) :=
  update_char s events e now url hLast hGet

/-- C1, witness: the amended theorem applied to state (none, none, 10),
sequence `[evU]` and now = 0. -/
theorem C1_witness :
    ([evU].getLast? = some evU) ∧
    KodakSmartHomeCam.get_event_video_url evU.data = Except.ok (some "u") ∧
    KodakSmartHomeCam.update ⟨none, none, 10⟩ [evU] 0 = Except.ok
      (if ((⟨none, none, 10⟩ : CamState).last_video_id ≠ some evU.id ∨
            (⟨none, none, 10⟩ : CamState).expires_at ≤ 0) ∧ truthy (some "u")
       then ⟨some evU.id, some "u", FORCE_REFRESH_INTERVAL + 0⟩
       else ⟨none, none, 10⟩) :=
  ⟨rfl, rfl, C1_refresh_trigger ⟨none, none, 10⟩ [evU] evU 0 (some "u") rfl rfl⟩

/-- C2: a successful construction sets last_video_id to the id of the last
event of the sequence (absent when empty), video_url to the file of the first
data item of that event whose file-type tag equals 2 (absent when empty or
unmatched), and expires_at to the construction time plus the 45-minute
window. -/
theorem C2_construction (events : List MotionEvent) (now : Nat) (s : CamState)
    (h : KodakSmartHomeCam.init events now = Except.ok s) :
    s.last_video_id = events.getLast?.map MotionEvent.id ∧
    s.video_url =
      (events.getLast?.bind
        (fun e => e.data.find? (fun d => d.file_type == some 2))).bind
        EventData.file ∧
    s.expires_at = FORCE_REFRESH_INTERVAL + now := by
  cases hL : events.getLast? with
  | none =>
    simp only [KodakSmartHomeCam.init, hL, Except.ok.injEq] at h
    subst h
    simp
  | some e =>
    simp only [KodakSmartHomeCam.init, hL] at h
    cases hG : KodakSmartHomeCam.get_event_video_url e.data with
    | error m => simp only [hG] at h; exact absurd h (by simp)
    | ok url =>
      simp only [hG, Except.ok.injEq] at h
      subst h
      refine ⟨by simp, ?_, rfl⟩
      have hfind := get_event_video_url_eq_find e.data
      rw [hG] at hfind
      cases hF : e.data.find? (fun d => d.file_type == some 2) with
      | none =>
        simp only [hF, Except.ok.injEq] at hfind
        simp [hF, hfind]
      | some d =>
        simp only [hF] at hfind
        cases hf : d.file with
        | none => simp only [hf] at hfind; exact absurd hfind (by simp)
        | some f =>
          simp only [hf, Except.ok.injEq] at hfind
          simp [hF, hf, hfind]

/-- C2, witness: construction from `[evU]` at time 0. -/
theorem C2_witness :
    KodakSmartHomeCam.init [evU] 0 =
      Except.ok ⟨some "a", some "u", FORCE_REFRESH_INTERVAL + 0⟩ ∧
    ((⟨some "a", some "u", FORCE_REFRESH_INTERVAL + 0⟩ : CamState).last_video_id
        = [evU].getLast?.map MotionEvent.id ∧
      (⟨some "a", some "u", FORCE_REFRESH_INTERVAL + 0⟩ : CamState).video_url =
        ([evU].getLast?.bind
          (fun e => e.data.find? (fun d => d.file_type == some 2))).bind
          EventData.file ∧
      (⟨some "a", some "u", FORCE_REFRESH_INTERVAL + 0⟩ : CamState).expires_at =
        FORCE_REFRESH_INTERVAL + 0) :=
  ⟨rfl, C2_construction [evU] 0 ⟨some "a", some "u", FORCE_REFRESH_INTERVAL + 0⟩ rfl⟩

/-- C3: when the newest fetched event has no type-2 data item, `update`
returns successfully (no exception) with the whole state — in particular
video_url and last_video_id — unchanged, whether or not the trigger condition
holds. -/
theorem C3_no_type2_noop (s : CamState) (events : List MotionEvent)
    (e : MotionEvent) (now : Nat) (hLast : events.getLast? = some e)
    (hNo : ∀ d ∈ e.data, d.file_type ≠ some 2) :
    KodakSmartHomeCam.update s events now = Except.ok s := by
  have hG := get_event_video_url_of_no_type2 e.data hNo
  have hchar := update_char s events e now none hLast hG
  rwa [if_neg (fun hh : _ ∧ _ => absurd hh.2 (by decide))] at hchar

/-- C3, witness: a new event with data items but no type-2 item, arriving with
a differing id and past the deadline (trigger condition true). -/
theorem C3_witness :
    ([evNoVid].getLast? = some evNoVid) ∧
    (∀ d ∈ evNoVid.data, d.file_type ≠ some 2) ∧
    KodakSmartHomeCam.update ⟨some "a", some "u", 100⟩ [evNoVid] 500 =
      Except.ok ⟨some "a", some "u", 100⟩ :=
  ⟨rfl, by decide,
    C3_no_type2_noop ⟨some "a", some "u", 100⟩ [evNoVid] evNoVid 500 rfl
      (by decide)⟩

/-- C4: construction from an empty sequence leaves video_url and
last_video_id absent, and any number of consecutive `update` calls with an
empty fetched sequence (at arbitrary times) is a no-op on the adapter
state. -/
theorem C4_empty_noop (now : Nat) :
    KodakSmartHomeCam.init [] now =
      Except.ok ⟨none, none, FORCE_REFRESH_INTERVAL + now⟩ ∧
    ∀ (s : CamState) (times : List Nat),
      times.foldl
        (fun acc t => acc.bind fun st => KodakSmartHomeCam.update st [] t)
        (Except.ok s) = Except.ok s := by
  refine ⟨rfl, ?_⟩
  intro s times
  induction times generalizing s with
  | nil => rfl
  | cons t rest ih => exact ih s

/-- C5: refresh is idempotent under an unchanged fetched sequence — if a first
`update` succeeds at a time strictly before the state's expires_at and a
second `update` with the same sequence happens strictly before the resulting
state's expires_at, the second call returns the first call's state
unchanged. -/
theorem C5_idempotent (s : CamState) (events : List MotionEvent)
    (n1 n2 : Nat) (s1 : CamState)
    (h : KodakSmartHomeCam.update s events n1 = Except.ok s1)
    (h1 : n1 < s.expires_at) (h2 : n2 < s1.expires_at) :
    KodakSmartHomeCam.update s1 events n2 = Except.ok s1 := by
  rcases update_ok_inv s events n1 s1 h with ⟨hL, rfl⟩ | ⟨e, hL, hcase⟩
  · simp only [KodakSmartHomeCam.update, hL]
  · rcases hcase with ⟨hc, rfl⟩ | ⟨hc, url, hG, hrest⟩
    · push_neg at hc
      simp only [KodakSmartHomeCam.update, hL]
      rw [if_neg (by push_neg; exact ⟨hc.1, h2⟩)]
    · rcases hrest with ⟨ht, rfl⟩ | ⟨ht, rfl⟩
      · simp only [KodakSmartHomeCam.update, hL]
        rw [if_neg (by push_neg; exact ⟨rfl, h2⟩)]
      · have hchar := update_char s1 events e n2 url hL hG
        rwa [if_neg (fun hh : _ ∧ _ => absurd hh.2 (by rw [ht]; decide))]
          at hchar

/-- C5, witness: a first refresh at time 5 adopts the event and a second
refresh at time 6 with the same sequence leaves the state as it was. -/
theorem C5_witness :
    KodakSmartHomeCam.update ⟨none, none, 10⟩ [evU] 5 =
      Except.ok ⟨some "a", some "u", FORCE_REFRESH_INTERVAL + 5⟩ ∧
    (5 : Nat) < 10 ∧ (6 : Nat) < FORCE_REFRESH_INTERVAL + 5 ∧
    KodakSmartHomeCam.update
        ⟨some "a", some "u", FORCE_REFRESH_INTERVAL + 5⟩ [evU] 6 =
      Except.ok ⟨some "a", some "u", FORCE_REFRESH_INTERVAL + 5⟩ :=
  ⟨rfl, by decide, by decide,
    C5_idempotent ⟨none, none, 10⟩ [evU] 5 6
      ⟨some "a", some "u", FORCE_REFRESH_INTERVAL + 5⟩ rfl (by decide)
      (by decide)⟩

/-- C6, counterexample: at time 10 (at the deadline) with newest event
`evEmpty`, whose single data item is tagged type 2 but carries an empty file
reference, `update` leaves expires_at at 10 instead of setting it to
FORCE_REFRESH_INTERVAL + 10, so the claim fails as stated. -/
theorem C6_counterexample :
    (⟨some "b", some "u", 10⟩ : CamState).expires_at ≤ 10 ∧
    (∃ d ∈ evEmpty.data, d.file_type = some 2) ∧
    [evEmpty].getLast? = some evEmpty ∧
    KodakSmartHomeCam.update ⟨some "b", some "u", 10⟩ [evEmpty] 10 =
      Except.ok ⟨some "b", some "u", 10⟩ ∧
    (10 : Nat) ≠ FORCE_REFRESH_INTERVAL + 10 :=
  ⟨by decide, ⟨⟨some 2, some ""⟩, by decide, rfl⟩, rfl, rfl, by decide⟩

/-- C6, amended: a refresh at or past expires_at whose newest event's URL scan
yields a non-empty file reference — in particular even when the newest id
equals last_video_id — sets expires_at to exactly the refresh time plus the
45-minute window (and adopts the URL and id). -/
theorem C6_forced_refresh (s : CamState) (events : List MotionEvent)
    (e : MotionEvent) (now : Nat) (f : String)
    (hLast : events.getLast? = some e) (hExp : s.expires_at ≤ now)
    (hGet : KodakSmartHomeCam.get_event_video_url e.data =
      Except.ok (some f))
    (hne : f ≠ "") :
    KodakSmartHomeCam.update s events now =
      Except.ok ⟨some e.id, some f, FORCE_REFRESH_INTERVAL + now⟩ := by
  have hchar := update_char s events e now (some f) hLast hGet
  have ht : truthy (some f) = true := by
    cases hEmp : f.isEmpty with
    | false => simp [truthy, hEmp]
    | true => exact absurd ((String.isEmpty_iff f).mp hEmp) hne
  rwa [if_pos ⟨Or.inr hExp, ht⟩] at hchar

/-- C6, witness: the amended theorem at the deadline with an unchanged event
id and URL "u". -/
theorem C6_witness :
    ([evU].getLast? = some evU) ∧
    ((⟨some "a", some "x", 10⟩ : CamState).expires_at ≤ 10) ∧
    (KodakSmartHomeCam.get_event_video_url evU.data = Except.ok (some "u")) ∧
    ("u" ≠ "") ∧
    KodakSmartHomeCam.update ⟨some "a", some "x", 10⟩ [evU] 10 =
      Except.ok ⟨some evU.id, some "u", FORCE_REFRESH_INTERVAL + 10⟩ :=
  ⟨rfl, by decide, rfl, by decide,
    C6_forced_refresh ⟨some "a", some "x", 10⟩ [evU] evU 10 "u" rfl
      (by decide) rfl (by decide)⟩

/-- C7: in every state observable by construction and successful refreshes,
whenever video_url holds a value it is the file reference of a type-2 data
item of some observed event — the adapter never fabricates a URL. -/
theorem C7_invariant (s : CamState) (obs : List MotionEvent)
    (hObs : Observed s obs) :
    ∀ u : String, s.video_url = some u →
    ∃ e ∈ obs, ∃ d ∈ e.data, d.file_type = some 2 ∧ d.file = some u := by
  induction hObs with
  | construct events now st h =>
    intro u hu
    cases hL : events.getLast? with
    | none =>
      simp only [KodakSmartHomeCam.init, hL, Except.ok.injEq] at h
      rw [← h] at hu
      exact absurd hu (by simp)
    | some e =>
      simp only [KodakSmartHomeCam.init, hL] at h
      cases hG : KodakSmartHomeCam.get_event_video_url e.data with
      | error m => simp only [hG] at h; exact absurd h (by simp)
      | ok url =>
        simp only [hG, Except.ok.injEq] at h
        rw [← h] at hu
        have hu' : url = some u := hu
        obtain ⟨d, hd, h2, hf⟩ :=
          get_event_video_url_mem e.data u (hu' ▸ hG)
        exact ⟨e, mem_of_getLast? hL, d, hd, h2, hf⟩
  | refresh st obs' events now st' hObs' hupd ih =>
    intro u hu
    rcases update_ok_inv st events now st' hupd with ⟨hL, rfl⟩ | ⟨e, hL, hcase⟩
    · obtain ⟨e', he', rest⟩ := ih u hu
      exact ⟨e', List.mem_append_left _ he', rest⟩
    · rcases hcase with ⟨hc, rfl⟩ | ⟨hc, url, hG, hrest⟩
      · obtain ⟨e', he', rest⟩ := ih u hu
        exact ⟨e', List.mem_append_left _ he', rest⟩
      · rcases hrest with ⟨ht, rfl⟩ | ⟨ht, rfl⟩
        · have hu' : url = some u := hu
          obtain ⟨d, hd, h2, hf⟩ :=
            get_event_video_url_mem e.data u (hu' ▸ hG)
          exact ⟨e, List.mem_append_right _ (mem_of_getLast? hL),
            d, hd, h2, hf⟩
        · obtain ⟨e', he', rest⟩ := ih u hu
          exact ⟨e', List.mem_append_left _ he', rest⟩

/-- C7, witness: the invariant applied to the state constructed from `[evU]`,
whose published URL "u" is traced back to evU's type-2 item. -/
theorem C7_witness :
    ∃ e ∈ [evU], ∃ d ∈ e.data, d.file_type = some 2 ∧ d.file = some "u" :=
  C7_invariant ⟨some "a", some "u", FORCE_REFRESH_INTERVAL + 0⟩ [evU]
    (Observed.construct [evU] 0
      ⟨some "a", some "u", FORCE_REFRESH_INTERVAL + 0⟩ rfl) "u" rfl

/-- C8: when video_url is absent, the still-image fetch and the MJPEG stream
proxy both return no content and perform no helper invocation, for every
helper behaviour. -/
theorem C8_absent_url (s : CamState) (extra : Option String)
    (helper : String → Option String → Except String String)
    (openR readerR proxyR : Except String Unit)
    (h : s.video_url = none) :
    async_camera_image s extra helper = ([], Except.ok none) ∧
    handle_async_mjpeg_stream s extra openR readerR proxyR =
      ([], Except.ok none) := by
  constructor
  · simp only [async_camera_image, h]
  · simp only [handle_async_mjpeg_stream, h]

/-- C8, witness: the fresh empty state with arbitrary concrete helper
outcomes. -/
theorem C8_witness :
    async_camera_image ⟨none, none, 0⟩ none (fun u _ => Except.ok u) =
      ([], Except.ok none) ∧
    handle_async_mjpeg_stream ⟨none, none, 0⟩ none (Except.ok ())
        (Except.ok ()) (Except.ok ()) =
      ([], Except.ok none) :=
  C8_absent_url ⟨none, none, 0⟩ none (fun u _ => Except.ok u)
    (Except.ok ()) (Except.ok ()) (Except.ok ()) rfl

/-- C9: when video_url is present and the helper session opens, the session
close is the final step of the invocation trace on every exit path — whether
obtaining the reader and proxying succeed or fail — before the result or the
propagated error is returned. -/
theorem C9_session_closed (s : CamState) (url : String) (extra : Option String)
    (readerR proxyR : Except String Unit) (h : s.video_url = some url) :
    (handle_async_mjpeg_stream s extra (Except.ok ()) readerR proxyR).1.getLast?
      = some StreamStep.close := by
  cases readerR with
  | error m => simp only [handle_async_mjpeg_stream, h]; rfl
  | ok u =>
    cases proxyR with
    | error m => simp only [handle_async_mjpeg_stream, h]; rfl
    | ok v => simp only [handle_async_mjpeg_stream, h]; rfl

/-- C9, witness: a failing reader still ends the trace with the session
close. -/
theorem C9_witness :
    ((⟨some "a", some "u", 0⟩ : CamState).video_url = some "u") ∧
    (handle_async_mjpeg_stream ⟨some "a", some "u", 0⟩ none (Except.ok ())
        (Except.error "boom") (Except.ok ())).1.getLast? =
      some StreamStep.close :=
  ⟨rfl, C9_session_closed ⟨some "a", some "u", 0⟩ "u" none
    (Except.error "boom") (Except.ok ()) rfl⟩

/-- C10: when the newest event's URL scan yields the empty string (its first
type-2 item carries an empty file reference), construction adopts it as
video_url, while `update` — whose adoption guard tests Python truthiness —
rejects it and leaves last_video_id, video_url and expires_at all
unchanged. -/
theorem C10_empty_string (events : List MotionEvent) (e : MotionEvent)
    (now : Nat) (s : CamState) (hLast : events.getLast? = some e)
    (hGet : KodakSmartHomeCam.get_event_video_url e.data =
      Except.ok (some "")) :
    KodakSmartHomeCam.init events now =
      Except.ok ⟨some e.id, some "", FORCE_REFRESH_INTERVAL + now⟩ ∧
    KodakSmartHomeCam.update s events now = Except.ok s := by
  constructor
  · simp only [KodakSmartHomeCam.init, hLast, hGet]
  · have hchar := update_char s events e now (some "") hLast hGet
    rwa [if_neg (fun hh : _ ∧ _ => absurd hh.2 (by decide))] at hchar

/-- C10, witness: construction from `[evEmpty]` publishes the empty string,
while a refresh seeing `evEmpty` as a new event adopts nothing. -/
theorem C10_witness :
    ([evEmpty].getLast? = some evEmpty) ∧
    (KodakSmartHomeCam.get_event_video_url evEmpty.data =
      Except.ok (some "")) ∧
    KodakSmartHomeCam.init [evEmpty] 0 =
      Except.ok ⟨some evEmpty.id, some "", FORCE_REFRESH_INTERVAL + 0⟩ ∧
    KodakSmartHomeCam.update ⟨none, none, 10⟩ [evEmpty] 0 =
      Except.ok ⟨none, none, 10⟩ :=
  ⟨rfl, rfl,
    (C10_empty_string [evEmpty] evEmpty 0 ⟨none, none, 10⟩ rfl rfl).1,
    (C10_empty_string [evEmpty] evEmpty 0 ⟨none, none, 10⟩ rfl rfl).2⟩

end Kodak
